import Mathlib

/-!
Verification development for the live file-index engine in `src/App.py`
(DPWH file search).  The Python source is shallowly embedded: every
definition below is translated from a specific function or statement of
`App.py`; machine integers and timestamps become `Nat`, fallible
operations become `Option`/`Except`, and the filesystem, the wall clock
and thread interleavings become explicit inputs (a record of the walk
output, a per-path stat result, event traces).
-/

namespace App

/-! ## String helpers (Python `str.lower`, `str.strip`, `str.split`, `in`) -/

/-- Python `str.lower` restricted to ASCII letters (the extension and
search strings the program compares are ASCII). -/
def pyLowerChar (c : Char) : Char :=
  if 'A' ≤ c ∧ c ≤ 'Z' then Char.ofNat (c.toNat + 32) else c

/-- Python `s.lower()`. -/
def pyLower (s : String) : String := ⟨s.data.map pyLowerChar⟩

/-- Python `s.strip()`: drop leading and trailing whitespace. -/
def pyStrip (s : String) : String :=
  ⟨((s.data.dropWhile Char.isWhitespace).reverse.dropWhile Char.isWhitespace).reverse⟩

/-- Helper for `pySplitWS`: accumulates the current word (reversed). -/
def splitWSAux : List Char → List Char → List String
  | [], acc => if acc.isEmpty then [] else [⟨acc.reverse⟩]
  | c :: cs, acc =>
    if c.isWhitespace then
      if acc.isEmpty then splitWSAux cs [] else ⟨acc.reverse⟩ :: splitWSAux cs []
    else splitWSAux cs (c :: acc)

/-- Python `s.split()` with no argument: split on whitespace runs,
discarding empty pieces. -/
def pySplitWS (s : String) : List String := splitWSAux s.data []

/-- Helper for `strContains`. -/
def containsAux (needle : List Char) : List Char → Bool
  | [] => needle.isEmpty
  | c :: cs => needle.isPrefixOf (c :: cs) || containsAux needle cs

/-- Python `sub in hay` on strings: substring containment. -/
def strContains (hay sub : String) : Bool := containsAux sub.data hay.data

/-- Helper for `splitOnChar`: accumulates the current piece (reversed). -/
def splitOnCharAux (sep : Char) : List Char → List Char → List String
  | [], acc => [⟨acc.reverse⟩]
  | c :: cs, acc =>
    if c = sep then ⟨acc.reverse⟩ :: splitOnCharAux sep cs []
    else splitOnCharAux sep cs (c :: acc)

/-- Python `s.split(sep)` for a one-character separator (the program
only ever splits on `'.'`, `'-'` and `'/'`): keeps empty pieces. -/
def splitOnChar (sep : Char) (s : String) : List String := splitOnCharAux sep s.data []

/-- Decimal digit string to number, `none` if empty or non-digit. -/
def digitsToNat : List Char → Option Nat
  | [] => none
  | cs =>
    if cs.all Char.isDigit then
      some (cs.foldl (fun a c => a * 10 + (c.toNat - 48)) 0)
    else none

/-! ## Extension handling (`App.py` lines 18-23, 47, 93-95, 104) -/

/-- `SUPPORTED_EXTENSIONS` (lines 18-23): extension to icon label. -/
def SUPPORTED_EXTENSIONS : List (String × String) :=
  [("pdf", "📄 PDF"), ("docx", "📝 Word"), ("xlsx", "📊 Excel"), ("zip", "🗜️ ZIP")]

/-- The keys of `SUPPORTED_EXTENSIONS`. -/
def supportedExts : List String := SUPPORTED_EXTENSIONS.map Prod.fst

/-- `s.lower().split('.')[-1] if '.' in s else ''` (lines 47, 94, 104). -/
def extOf (s : String) : String :=
  if s.data.contains '.' then (splitOnChar '.' (pyLower s)).getLastD "" else ""

/-! ## Presentation fields derived while building a record (lines 118-129) -/

/-- The size string (line 122), Python `f-string` of `st_size/1024` at one
decimal.  Division by 1024 is exact in binary floating point, so the
format rounds the exact rational to one decimal, ties to even. -/
def sizeStrOf (bytes : Nat) : String :=
  let n := bytes * 10
  let q := n / 1024
  let r := n % 1024
  let tenths := if 512 < r then q + 1 else if r < 512 then q else q + q % 2
  toString (tenths / 10) ++ "." ++ toString (tenths % 10) ++ " KB"

/-- Civil date from days since 1970-01-01 (proleptic Gregorian),
for timestamps at or after the epoch. -/
def civilFromDays (days : Nat) : Nat × Nat × Nat :=
  let z := days + 719468
  let era := z / 146097
  let doe := z % 146097
  let yoe := (doe - doe / 1460 + doe / 36524 - doe / 146097) / 365
  let y := yoe + era * 400
  let doy := doe - (365 * yoe + yoe / 4 - yoe / 100)
  let mp := (5 * doy + 2) / 153
  let d := doy - (153 * mp + 2) / 5 + 1
  let m := if mp < 10 then mp + 3 else mp - 9
  (if m ≤ 2 then y + 1 else y, m, d)

/-- `datetime.fromtimestamp(t).date()` (line 225), modelled in UTC. -/
def dateOfTs (t : Nat) : Nat × Nat × Nat := civilFromDays (t / 86400)

/-- Zero-padded two-digit rendering. -/
def pad2 (n : Nat) : String := if n < 10 then "0" ++ toString n else toString n

/-- `datetime.fromtimestamp(t).strftime('%Y-%m-%d %H:%M')` (line 124),
modelled in UTC. -/
def formatTs (t : Nat) : String :=
  let ymd := dateOfTs t
  let secs := t % 86400
  toString ymd.1 ++ "-" ++ pad2 ymd.2.1 ++ "-" ++ pad2 ymd.2.2 ++ " " ++
    pad2 (secs / 3600) ++ ":" ++ pad2 (secs % 3600 / 60)

/-- Strict `<` on `(year, month, day)` triples, as Python compares
`date` objects. -/
def dateLt : Nat × Nat × Nat → Nat × Nat × Nat → Bool
  | (y1, m1, d1), (y2, m2, d2) =>
    decide (y1 < y2) || (decide (y1 = y2) &&
      (decide (m1 < m2) || (decide (m1 = m2) && decide (d1 < d2))))

/-- Length of a month, with the Gregorian leap rule. -/
def daysInMonth (y m : Nat) : Nat :=
  if m = 2 then (if (y % 4 = 0 ∧ y % 100 ≠ 0) ∨ y % 400 = 0 then 29 else 28)
  else if m = 4 ∨ m = 6 ∨ m = 9 ∨ m = 11 then 30 else 31

/-- `datetime.strptime(s, '%Y-%m-%d')` (lines 227, 231): `none` models the
`ValueError` the Python call raises on a malformed date. -/
def parseDate (s : String) : Option (Nat × Nat × Nat) :=
  match splitOnChar '-' s with
  | [ys, ms, ds] =>
    match digitsToNat ys.data, digitsToNat ms.data, digitsToNat ds.data with
    | some y, some m, some d =>
      if 1 ≤ m ∧ m ≤ 12 ∧ 1 ≤ d ∧ d ≤ daysInMonth y m then some (y, m, d) else none
    | _, _, _ => none
  | _ => none

/-! ## Path helpers (`os.path` on a POSIX layout) -/

/-- `os.path.join(root, file)` for the POSIX paths `os.walk` yields. -/
def joinPath (root file : String) : String := root ++ "/" ++ file

/-- `os.path.relpath(p, home)` for paths physically under `home`
(the only paths `os.walk(HOME_FOLDER)` produces). -/
def relPath (home p : String) : String :=
  if (home.data ++ ['/']).isPrefixOf p.data then ⟨p.data.drop (home.data.length + 1)⟩
  else p

/-- `rel_path.replace('\\', '/')` (line 116). -/
def webPath (s : String) : String :=
  ⟨s.data.map fun c => if c = '\\' then '/' else c⟩

/-- `os.path.basename`. -/
def basenameStr (s : String) : String :=
  ⟨(s.data.reverse.takeWhile (· ≠ '/')).reverse⟩

/-- `os.path.dirname`. -/
def dirnameStr (s : String) : String :=
  match s.data.reverse.dropWhile (· ≠ '/') with
  | [] => ""
  | _ :: rest => ⟨rest.reverse⟩

/-! ## The data model: one cache entry (the dict built at lines 118-129) -/

/-- One entry of `file_cache`: the dict literal of lines 118-129.
`modified` is the stat modification time (the spec grants at least
1-second resolution, so a `Nat` of seconds); `zip_contents` is `none`
where Python stores `None`. -/
structure FileRecord where
  name : String
  path : String
  full_path : String
  size : String
  modified : Nat
  modified_str : String
  folder : String
  type : String
  icon : String
  zip_contents : Option (List String)
deriving DecidableEq

/-! ## The filesystem, as the engine observes it -/

/-- Result of `os.stat` on one path.  `permOrMissing` is a
`PermissionError` or `FileNotFoundError` (caught at line 131);
`otherErr` is any other exception raised while processing the path,
which escapes to the outer `except` of line 144. -/
inductive StatRes where
  | ok (mtime size : Nat)
  | permOrMissing
  | otherErr
deriving DecidableEq

/-- Whether a stat succeeded. -/
def statOk : StatRes → Bool
  | .ok _ _ => true
  | _ => false

/-- A point-in-time view of the directory tree under `HOME_FOLDER`.
`walk` is the `os.walk` output as (dirpath, filenames) pairs — an
unreadable root yields `[]`, because `os.walk`'s default `onerror=None`
swallows the `scandir` error.  `statOf` gives each path's stat outcome,
`zipNames` the archive name list (`none` models any `zipfile` failure).
Enumeration order (including Python's set iteration order in the second
pass) is part of this input and fixed for a given `FS` value. -/
structure FS where
  walk : List (String × List String)
  statOf : String → StatRes
  zipNames : String → Option (List String)

/-- `get_zip_contents` (lines 68-73): first five archive entry names, or
`None` on any failure. -/
def get_zip_contents (fs : FS) (p : String) : Option (List String) :=
  (fs.zipNames p).map (fun l => l.take 5)

/-- First pass of `update_file_cache` (lines 88-97): every file whose
basename has a supported extension, joined to its directory. -/
def collectFiles (fs : FS) : List String :=
  (fs.walk.map (fun rf =>
    (rf.2.filter (fun f => f.data.contains '.' && supportedExts.contains (extOf f))).map
      (joinPath rf.1))).flatten

/-- Building a fresh record (lines 114-129). -/
def buildRecord (home : String) (fs : FS) (full_path : String) (mtime size : Nat) :
    FileRecord :=
  let ext := extOf full_path
  let rel := relPath home full_path
  { name := basenameStr full_path
    path := webPath rel
    full_path := full_path
    size := sizeStrOf size
    modified := mtime
    modified_str := formatTs mtime
    folder := (fun d => if d = "" then "/" else d) (dirnameStr rel)
    type := ext
    icon := (SUPPORTED_EXTENSIONS.lookup ext).getD "📄"
    zip_contents := if ext = "zip" then get_zip_contents fs full_path else none }

/-- Second pass of `update_file_cache` (lines 100-132): process each
collected path against the `previous_files` dict.  Returns the new
record list and the `files_updated` counter, or `none` when an uncaught
exception aborts the whole cycle (outer `except`, line 144). -/
def processPaths (home : String) (fs : FS) (prevFiles : List (String × FileRecord)) :
    List String → Option (List FileRecord × Nat)
  | [] => some ([], 0)
  | p :: rest =>
    match fs.statOf p with
    | .permOrMissing => processPaths home fs prevFiles rest
    | .otherErr => none
    | .ok mtime size =>
      match processPaths home fs prevFiles rest with
      | none => none
      | some (recs, updated) =>
        match prevFiles.lookup p with
        | some c =>
          if c.modified = mtime then some (c :: recs, updated)
          else some (buildRecord home fs p mtime size :: recs, updated + 1)
        | none => some (buildRecord home fs p mtime size :: recs, updated + 1)

/-- The sort key relation of `new_cache.sort(key=lambda x: -x['modified'])`
(line 134): descending by `modified`. -/
def modDesc (a b : FileRecord) : Prop := b.modified ≤ a.modified

instance : DecidableRel modDesc := fun a b => Nat.decLe b.modified a.modified

instance : IsTotal FileRecord modDesc := ⟨fun a b => Nat.le_total b.modified a.modified⟩

instance : IsTrans FileRecord modDesc := ⟨fun _ _ _ h1 h2 => Nat.le_trans h2 h1⟩

/-- `new_cache.sort(key=lambda x: -x['modified'])` (line 134): Python's
`list.sort` is a stable sort, which any stable sorting algorithm models;
`List.insertionSort` with `modDesc` places equal keys in input order. -/
def sortByModifiedDesc (l : List FileRecord) : List FileRecord :=
  List.insertionSort modDesc l

/-! ## Engine state and one reconciliation cycle -/

/-- The mutable globals the cycle touches: `file_cache` (line 29), the
module-global `last_cache_update` (line 30) and `app.last_cache_update`
(line 32).  Zero means "stale / never published". -/
structure EngineState where
  file_cache : List FileRecord
  last_cache_update : Nat
  app_last : Nat
deriving DecidableEq

/-- The module-initial state (lines 29-32). -/
def initState : EngineState := ⟨[], 0, 0⟩

/-- One executed reconciliation cycle (lines 81-145) at wall-clock time
`t`: walk, process, sort, publish under the lock (lines 136-139); on an
uncaught exception the state is left untouched (outer `except`) and the
second component is `none`, otherwise it carries `files_updated`. -/
def runCycle (home : String) (fs : FS) (prevFiles : List (String × FileRecord))
    (t : Nat) (s : EngineState) : EngineState × Option Nat :=
  match processPaths home fs prevFiles (collectFiles fs) with
  | none => (s, none)
  | some (recs, updated) =>
    ({ file_cache := sortByModifiedDesc recs, last_cache_update := t, app_last := t },
      some updated)

/-- `CACHE_EXPIRY` (line 25). -/
def CACHE_EXPIRY : Nat := 5

/-- `previous_files = {f['full_path']: f for f in file_cache}` (line 77). -/
def keyByPath (l : List FileRecord) : List (String × FileRecord) :=
  l.map (fun f => (f.full_path, f))

/-- The ticks of the `while` loop (lines 79-147).  Each tick observes the
wall clock `t` and the filesystem `fs`; a cycle runs when the freshness
window expired or the app timestamp was zeroed (line 80).  The returned
trace holds, per executed cycle, `some files_updated` or `none` for an
aborted cycle. -/
def cacheLoopAux (home : String) (prevFiles : List (String × FileRecord)) :
    List (Nat × FS) → EngineState → EngineState × List (Option Nat)
  | [], s => (s, [])
  | (t, fs) :: rest, s =>
    if CACHE_EXPIRY < t - s.last_cache_update ∨ s.app_last = 0 then
      let step := runCycle home fs prevFiles t s
      let tail := cacheLoopAux home prevFiles rest step.1
      (tail.1, step.2 :: tail.2)
    else cacheLoopAux home prevFiles rest s

/-- `update_file_cache` (lines 75-147).  Crucially, `previous_files` is
computed once from `file_cache` at function entry (line 77), before the
`while` loop, and never refreshed — exactly as in the source. -/
def update_file_cache (home : String) (ticks : List (Nat × FS)) (s0 : EngineState) :
    EngineState × List (Option Nat) :=
  cacheLoopAux home (keyByPath s0.file_cache) ticks s0

/-- `has_data` (lines 1019-1021): `len(file_cache) > 0`. -/
def has_data (s : EngineState) : Bool := decide (0 < s.file_cache.length)

/-! ## Python `int()` conversion (line 184) -/

/-- Digit tail of a Python integer literal: decimal digits with single
underscores allowed only between digits. -/
def pyDigitsGo (acc : Nat) : List Char → Option Nat
  | [] => some acc
  | '_' :: c :: cs =>
    if c.isDigit then pyDigitsGo (acc * 10 + (c.toNat - 48)) cs else none
  | ['_'] => none
  | c :: cs => if c.isDigit then pyDigitsGo (acc * 10 + (c.toNat - 48)) cs else none

/-- Unsigned digit string accepted by Python `int()`. -/
def pyDigits : List Char → Option Nat
  | [] => none
  | c :: cs => if c.isDigit then pyDigitsGo (c.toNat - 48) cs else none

/-- Python `int(s)` on a string (ASCII): strips whitespace, accepts an
optional sign and decimal digits with grouping underscores; `none`
models the `ValueError` it raises otherwise. -/
def pythonInt (s : String) : Option Int :=
  match (pyStrip s).data with
  | '+' :: rest => (pyDigits rest).map (fun n => (n : Int))
  | '-' :: rest => (pyDigits rest).map (fun n => -(n : Int))
  | rest => (pyDigits rest).map (fun n => (n : Int))

/-! ## The query route `index` (lines 180-253) -/

/-- `FILES_PER_PAGE` (line 17). -/
def FILES_PER_PAGE : Nat := 20

/-- The request parameters the route reads (lines 182-186); `none` is an
absent query-string key. -/
structure Params where
  search : Option String
  ftype : Option String
  page : Option String
  date_from : Option String
  date_to : Option String

/-- The exception a request can die with: `int()` or `strptime` raising
`ValueError`. -/
inductive RouteError where
  | valueError
deriving DecidableEq

/-- The per-file body of the filtering loop (lines 219-245): `false` is a
`continue`, a thrown error is an uncaught `ValueError` from `strptime`. -/
def filterStep (file_type date_from date_to search_query : String) (f : FileRecord) :
    Except RouteError Bool := do
  if file_type ≠ "all" ∧ f.type ≠ file_type then
    return false
  if date_from ≠ "" ∨ date_to ≠ "" then
    let file_date := dateOfTs f.modified
    if date_from ≠ "" then
      match parseDate date_from with
      | none => throw .valueError
      | some from_date => if dateLt file_date from_date then return false
    if date_to ≠ "" then
      match parseDate date_to with
      | none => throw .valueError
      | some to_date => if dateLt to_date file_date then return false
  if search_query ≠ "" then
    let search_terms := pySplitWS search_query
    let matched := search_terms.any (fun term =>
      strContains (pyLower f.name) term || strContains (pyLower f.folder) term)
    if !matched then return false
  return true

/-- The filtering loop over the cache (lines 217-245), preserving cache
order. -/
def filter_files (file_type date_from date_to search_query : String) :
    List FileRecord → Except RouteError (List FileRecord)
  | [] => .ok []
  | f :: rest => do
    let keep ← filterStep file_type date_from date_to search_query f
    let tail ← filter_files file_type date_from date_to search_query rest
    pure (if keep then f :: tail else tail)

/-- What pagination (lines 247-253) hands to the template. -/
structure PageResult where
  total_files : Nat
  total_pages : Nat
  page : Int
  start_idx : Nat
  records : List FileRecord
  showing_end : Nat
deriving DecidableEq

/-- Lines 247-253: `ceil(total/20)` (exact, as the claims' sizes are far
below the binary-float precision bound), clamp, slice. -/
def paginate (page : Int) (files : List FileRecord) : PageResult :=
  let total_files := files.length
  let total_pages := (total_files + FILES_PER_PAGE - 1) / FILES_PER_PAGE
  let p := max 1 (min page (Int.ofNat total_pages))
  let start_idx := (p - 1).toNat * FILES_PER_PAGE
  let end_idx := start_idx + FILES_PER_PAGE
  { total_files := total_files
    total_pages := total_pages
    page := p
    start_idx := start_idx
    records := (files.drop start_idx).take FILES_PER_PAGE
    showing_end := if end_idx ≤ total_files then end_idx else total_files }

/-- What the route renders: the "still building" page (lines 189-215) or
a results page. -/
inductive RouteOutcome where
  | loadingPage
  | resultsPage (r : PageResult)
deriving DecidableEq

/-- The `index` route (lines 180-253): parse parameters (the `int` at
line 184 can raise), serve the loading page while `file_cache` is empty,
else filter and paginate. -/
def indexRoute (p : Params) (file_cache : List FileRecord) :
    Except RouteError RouteOutcome := do
  let search_query := pyLower (pyStrip (p.search.getD ""))
  let file_type := p.ftype.getD "all"
  let page : Int ←
    match p.page with
    | none => pure 1
    | some s =>
      match pythonInt s with
      | some n => pure n
      | none => throw .valueError
  let date_from := p.date_from.getD ""
  let date_to := p.date_to.getD ""
  if file_cache.isEmpty then
    return .loadingPage
  let filtered ← filter_files file_type date_from date_to search_query file_cache
  return .resultsPage (paginate page filtered)

/-! ## The `/updates` notifier and its interleaving with the writers -/

/-- One atomic action, as seen by a single `/updates` consumer:
`publish` is the lock-guarded block of lines 136-139 (the reconciler
commits a new cache at wall time `t`); `invalidate` is
`trigger_update` (lines 60-66) zeroing both timestamps; `poll` is one
iteration of the `event_stream` loop body (lines 1028-1035). -/
inductive NotifierEv where
  | publish (t : Nat) (recs : List FileRecord)
  | invalidate
  | poll
deriving DecidableEq

/-- Globals plus the consumer's generator-local state (lines 1026-1027)
and the versions it has yielded, oldest first. -/
structure NotifierState where
  file_cache : List FileRecord
  last_cache_update : Nat
  app_last : Nat
  last_version : Nat
  last_file_count : Nat
  observed : List Nat
deriving DecidableEq

/-- Interpretation of one action (see `NotifierEv`). -/
def notifierStep (s : NotifierState) : NotifierEv → NotifierState
  | .publish t recs =>
    { s with file_cache := recs, last_cache_update := t, app_last := t }
  | .invalidate => { s with app_last := 0, last_cache_update := 0 }
  | .poll =>
    if s.last_version < s.app_last ∨ 5 < Nat.dist s.file_cache.length s.last_file_count then
      { s with last_version := s.app_last, last_file_count := s.file_cache.length,
               observed := s.observed ++ [s.app_last] }
    else s

/-- A consumer that connected at process start (all globals at their
line-28-to-32 initial values), run through a trace of actions. -/
def runNotifier (evs : List NotifierEv) : NotifierState :=
  evs.foldl notifierStep ⟨[], 0, 0, 0, 0, []⟩

/-- Bool-valued guard: every `publish` in the trace carries a wall-clock
time strictly above the previous one (and above `a`, the time of the
last publish so far; `invalidate` zeroes the reference as the code
does). -/
def clockOK (a : Nat) : List NotifierEv → Bool
  | [] => true
  | .publish t _ :: r => decide (a < t) && clockOK t r
  | .invalidate :: r => clockOK 0 r
  | .poll :: r => clockOK a r

/-! ## The change watcher `FileChangeHandler` (lines 39-66) -/

/-- The handler's view of the world: the globals it can zero, the
`debounce_timers` dict (path to the currently pending, uncancelled
timer id), a fresh-id counter, and two instrumentation counters —
`staleness_marks` counts assignments of `0` to `app.last_cache_update`
(lines 50 and 63), `trigger_calls` counts `trigger_update` entries. -/
structure WatcherState where
  file_cache : List FileRecord
  last_cache_update : Nat
  app_last : Nat
  debounce_timers : List (String × Nat)
  next_timer : Nat
  staleness_marks : Nat
  trigger_calls : Nat
deriving DecidableEq

/-- `on_any_event` (lines 45-58): for a supported non-directory path,
immediately zero `app.last_cache_update` (line 50), cancel the pending
timer for that path (lines 53-54) and start a fresh one (lines 56-58). -/
def on_any_event (s : WatcherState) (is_directory : Bool) (src_path : String) :
    WatcherState :=
  if is_directory then s
  else if supportedExts.contains (extOf src_path) then
    { s with
      app_last := 0
      staleness_marks := s.staleness_marks + 1
      debounce_timers :=
        (src_path, s.next_timer) :: s.debounce_timers.eraseP (fun e => e.1 == src_path)
      next_timer := s.next_timer + 1 }
  else s

/-- `trigger_update` (lines 60-66): zero `app.last_cache_update` and the
module-global `last_cache_update`. -/
def trigger_update (s : WatcherState) : WatcherState :=
  { s with
    app_last := 0
    last_cache_update := 0
    staleness_marks := s.staleness_marks + 1
    trigger_calls := s.trigger_calls + 1 }

/-- Expiry of every still-pending (never-cancelled) timer: each runs
`trigger_update` once.  Cancelled timers were removed from the pending
list when their path saw a later event. -/
def fire_pending (s : WatcherState) : WatcherState :=
  s.debounce_timers.foldl (fun acc _ => trigger_update acc)
    { s with debounce_timers := [] }

/-- `n` rapid events on the same path, all inside the debounce window
(so each cancels its predecessor's timer before it fires). -/
def applyEvents (p : String) (s : WatcherState) : Nat → WatcherState
  | 0 => s
  | n + 1 => on_any_event (applyEvents p s n) false p

/-- A whole burst: `n` events on path `p` within the window, then the
window elapses and the surviving timers fire. -/
def runBurst (n : Nat) (p : String) (s : WatcherState) : WatcherState :=
  fire_pending (applyEvents p s n)

/-! ## File retrieval `serve_file` (lines 1039-1041) -/

/-- Outcome of a file request: served content, HTTP 404, or the 404 the
traversal guard answers for an escaping path (before any read). -/
inductive ServeResult where
  | ok (content : List String)
  | notFound
  | invalidPath
deriving DecidableEq

/-- The files reachable below the configured root, keyed by their
resolved root-relative segment list. -/
structure ServeFS where
  read : List String → Option (List String)

/-- Modelled from the spec: `serve_file` (line 1041) delegates wholly to
Flask's `send_from_directory` (werkzeug `safe_join`), which is not part
of this repository.  Per the spec it resolves `relativePath` against the
configured root and rejects any path that escapes it: `.` and empty
segments vanish, `..` pops one resolved segment, and popping past the
root is the escape. -/
def resolveSegs (segs acc : List String) : Option (List String) :=
  match segs with
  | [] => some acc.reverse
  | seg :: rest =>
    if seg = "" ∨ seg = "." then resolveSegs rest acc
    else if seg = ".." then
      match acc with
      | [] => none
      | _ :: acc' => resolveSegs rest acc'
    else resolveSegs rest (seg :: acc)

/-- Modelled from the spec: `fetchFileBytes` — resolve against the root;
an escaping path is rejected with `invalidPath` and nothing is read
(the `ServeFS` is only consulted after resolution succeeds). -/
def fetchFileBytes (fs : ServeFS) (rel : String) : ServeResult :=
  match resolveSegs (splitOnChar '/' rel) [] with
  | none => .invalidPath
  | some segs =>
    match fs.read segs with
    | some c => .ok c
    | none => .notFound

/-- Specification-side escape test, independent of `resolveSegs`: track
the running depth below the root; a `..` at depth zero escapes. -/
def escapesAux : List String → Nat → Bool
  | [], _ => false
  | seg :: rest, d =>
    if seg = "" ∨ seg = "." then escapesAux rest d
    else if seg = ".." then (if d = 0 then true else escapesAux rest (d - 1))
    else escapesAux rest (d + 1)

/-- A relative path escapes the root when its cumulative `..` travel
climbs above the root at any point. -/
def escapesRoot (rel : String) : Bool := escapesAux (splitOnChar '/' rel) 0

/-! ## Concrete inputs used to evaluate the model -/

/-- A sample record shaped exactly as `buildRecord` would emit for a
1 KiB pdf indexed at second `i`. -/
def mkRec (i : Nat) : FileRecord :=
  { name := "f" ++ toString i ++ ".pdf"
    path := "f" ++ toString i ++ ".pdf"
    full_path := "/home/u/f" ++ toString i ++ ".pdf"
    size := sizeStrOf 1024
    modified := i
    modified_str := formatTs i
    folder := "/"
    type := "pdf"
    icon := "📄 PDF"
    zip_contents := none }

/-- `n` sample records with distinct paths and ascending timestamps. -/
def mkRecs (n : Nat) : List FileRecord := (List.range n).map mkRec

/-- A filesystem with a single pdf whose modification time never
changes between observations. -/
def fsOneFile : FS :=
  { walk := [("/home/u", ["a.pdf"])]
    statOf := fun p => if p = "/home/u/a.pdf" then .ok 100 2048 else .otherErr
    zipNames := fun _ => none }

/-- A filesystem whose root has become unreadable: `os.walk` with its
default `onerror=None` swallows the `scandir` failure and yields no
entries at all. -/
def fsUnreadableRoot : FS :=
  { walk := [], statOf := fun _ => .permOrMissing, zipNames := fun _ => none }

/-- An engine state that has already published one record. -/
def sPublished : EngineState := ⟨[mkRec 0], 10, 10⟩

/-- A filesystem whose stat raises an uncaught `OSError` for its one
indexed file. -/
def fsStatBlowsUp : FS :=
  { walk := [("h", ["b.pdf"])], statOf := fun _ => .otherErr, zipNames := fun _ => none }

/-- A filesystem containing files, none with a supported extension: a
reconciliation over it succeeds and publishes a confirmed-empty
snapshot. -/
def fsNoMatches : FS :=
  { walk := [("h", ["notes.txt"])], statOf := fun _ => .ok 100 10, zipNames := fun _ => none }

/-- A filesystem with two pdfs with distinct modification times. -/
def fsTwoFiles : FS :=
  { walk := [("h", ["a.pdf", "b.pdf"])]
    statOf := fun p => if p = "h/a.pdf" then .ok 100 2048 else .ok 300 512
    zipNames := fun _ => none }

/-- The records `fsTwoFiles` reconciles to from an empty previous
snapshot. -/
def twoFilesRecs : List FileRecord :=
  ((processPaths "h" fsTwoFiles [] (collectFiles fsTwoFiles)).getD ([], 0)).1

/-- The `files_updated` count of that reconciliation. -/
def twoFilesUpd : Nat :=
  ((processPaths "h" fsTwoFiles [] (collectFiles fsTwoFiles)).getD ([], 0)).2

/-- A watcher state carrying nonzero timestamps and no pending timer. -/
def w0 : WatcherState := ⟨[], 3, 3, [], 0, 0, 0⟩

/-- The interleaving that breaks version monotonicity: two publishes
whose second grows the cache by more than five records, with a watcher
invalidation slipping in before the consumer's second poll. -/
def c2Trace : List NotifierEv :=
  [.publish 5 (mkRecs 10), .poll, .publish 7 (mkRecs 20), .invalidate, .poll]

/-- A well-clocked trace with no invalidation. -/
def c2GoodTrace : List NotifierEv :=
  [.publish 3 [], .poll, .publish 6 (mkRecs 6), .poll]

end App

namespace App

/-! # Theorems -/

/-- C1: the claim says an unchanged file is reused from the previous
published snapshot at the cost of one stat.  The code evaluated at a
concrete run refutes this: with one pdf whose mtime stays 100, two
executed cycles both report `files_updated = 1` — the second cycle
re-derives the record although the previously published snapshot holds
it with the identical mtime, because `previous_files` (line 77) is
captured once from the startup-empty `file_cache` and never refreshed.
(Under the claim the trace would be `[some 1, some 0]`.) -/
theorem c1_unchanged_file_rederived :
    (update_file_cache "/home/u" [(10, fsOneFile), (20, fsOneFile)] initState).2 =
      [some 1, some 1] ∧
    (update_file_cache "/home/u" [(10, fsOneFile), (20, fsOneFile)] initState).1.file_cache.map
      (fun r => (r.full_path, r.modified)) = [("/home/u/a.pdf", 100)] := by
  decide

/-- Helper for C7: one uncaught per-path exception aborts the entire
second pass. -/
theorem processPaths_eq_none_of_otherErr (home : String) (fs : FS)
    (prevFiles : List (String × FileRecord)) :
    ∀ ps : List String, (∃ p ∈ ps, fs.statOf p = .otherErr) →
      processPaths home fs prevFiles ps = none := by
  intro ps
  induction ps with
  | nil => rintro ⟨p, hp, _⟩; cases hp
  | cons q rest ih =>
    rintro ⟨p, hp, herr⟩
    rcases List.mem_cons.mp hp with rfl | hrest
    · simp only [processPaths, herr]
    · have hnone := ih ⟨p, hrest, herr⟩
      simp only [processPaths, hnone]
      cases hq : fs.statOf q <;> simp

/-- C7 (amended): when an exception escapes the per-file handler (any
error other than the caught `PermissionError`/`FileNotFoundError`), the
whole cycle is abandoned: the previously published snapshot and both
timestamps are untouched, and no publish is reported — the loop simply
reaches its next tick. -/
theorem c7_uncaught_error_preserves_snapshot (home : String) (fs : FS)
    (prevFiles : List (String × FileRecord)) (t : Nat) (s : EngineState)
    (h : ∃ p ∈ collectFiles fs, fs.statOf p = .otherErr) :
    (runCycle home fs prevFiles t s).1 = s ∧ (runCycle home fs prevFiles t s).2 = none := by
  have hn := processPaths_eq_none_of_otherErr home fs prevFiles (collectFiles fs) h
  simp [runCycle, hn]

/-- C7 witness: a cycle whose single file's stat raises an uncaught
error leaves the published state exactly as it was. -/
theorem c7_uncaught_error_preserves_snapshot_witness :
    (runCycle "h" fsStatBlowsUp (keyByPath sPublished.file_cache) 20 sPublished).1 =
      sPublished :=
  (c7_uncaught_error_preserves_snapshot "h" fsStatBlowsUp
    (keyByPath sPublished.file_cache) 20 sPublished ⟨"h/b.pdf", by decide, rfl⟩).1

/-- C7 counterexample: the claim's own example fails on the code.  An
unreadable root is not an exception: `os.walk`'s default `onerror=None`
swallows it and yields nothing, so the cycle completes "successfully"
and publishes an **empty** snapshot, wiping the previously published
non-empty one instead of leaving it unchanged. -/
theorem c7_root_unreadable_wipes_snapshot :
    sPublished.file_cache ≠ [] ∧
    (runCycle "/home/u" fsUnreadableRoot (keyByPath sPublished.file_cache) 20
      sPublished).2 = some 0 ∧
    (runCycle "/home/u" fsUnreadableRoot (keyByPath sPublished.file_cache) 20
      sPublished).1.file_cache = [] := by
  decide

/-- Helper for C9: a completed second pass yields exactly one record per
successfully stat'd path. -/
theorem processPaths_length (home : String) (fs : FS)
    (prevFiles : List (String × FileRecord)) :
    ∀ (ps : List String) (recs : List FileRecord) (u : Nat),
      processPaths home fs prevFiles ps = some (recs, u) →
      recs.length = (ps.filter (fun p => statOk (fs.statOf p))).length := by
  intro ps
  induction ps with
  | nil =>
    intro recs u h
    simp only [processPaths, Option.some.injEq, Prod.mk.injEq] at h
    simp [← h.1]
  | cons q rest ih =>
    intro recs u h
    cases hq : fs.statOf q with
    | permOrMissing =>
      simp only [processPaths, hq] at h
      simpa [List.filter, hq, statOk] using ih recs u h
    | otherErr => simp [processPaths, hq] at h
    | ok mtime size =>
      simp only [processPaths, hq] at h
      cases hrest : processPaths home fs prevFiles rest with
      | none => rw [hrest] at h; cases h
      | some pr =>
        obtain ⟨recs0, u0⟩ := pr
        rw [hrest] at h
        have hlen := ih recs0 u0 hrest
        cases hl : prevFiles.lookup q with
        | some c =>
          rw [hl] at h
          dsimp only at h
          by_cases hm : c.modified = mtime
          · rw [if_pos hm] at h
            simp only [Option.some.injEq, Prod.mk.injEq] at h
            simp [← h.1, List.filter, hq, statOk, hlen]
          · rw [if_neg hm] at h
            simp only [Option.some.injEq, Prod.mk.injEq] at h
            simp [← h.1, List.filter, hq, statOk, hlen]
        | none =>
          rw [hl] at h
          dsimp only at h
          simp only [Option.some.injEq, Prod.mk.injEq] at h
          simp [← h.1, List.filter, hq, statOk, hlen]

/-- C9 (amended): after a completed reconciliation, `has_data()` is true
exactly when the cycle found at least one supported file that stat'd
successfully — i.e. exactly when the published snapshot is non-empty.
A confirmed-empty successful publish leaves `has_data()` false. -/
theorem c9_hasdata_iff_nonempty_snapshot (home : String) (fs : FS)
    (prevFiles : List (String × FileRecord)) (t : Nat) (s : EngineState)
    (recs : List FileRecord) (u : Nat)
    (h : processPaths home fs prevFiles (collectFiles fs) = some (recs, u)) :
    has_data (runCycle home fs prevFiles t s).1 =
      (collectFiles fs).any (fun p => statOk (fs.statOf p)) := by
  have hlen := processPaths_length home fs prevFiles (collectFiles fs) recs u h
  simp only [runCycle, h, has_data, sortByModifiedDesc]
  rw [List.length_insertionSort, hlen]
  rcases hany : (collectFiles fs).any (fun p => statOk (fs.statOf p)) with _ | _
  · simp only [List.any_eq_false] at hany
    have : (collectFiles fs).filter (fun p => statOk (fs.statOf p)) = [] :=
      List.filter_eq_nil_iff.mpr hany
    simp [this]
  · simp only [List.any_eq_true] at hany
    rcases hany with ⟨p, hp, hok⟩
    have : p ∈ (collectFiles fs).filter (fun p => statOk (fs.statOf p)) :=
      List.mem_filter.mpr ⟨hp, hok⟩
    simp [List.length_pos.mpr (List.ne_nil_of_mem this)]

/-- C9 witness: the amended statement evaluated on a walk with no
supported files — the cycle publishes, `has_data` stays false. -/
theorem c9_hasdata_iff_nonempty_snapshot_witness :
    has_data (runCycle "h" fsNoMatches [] 10 initState).1 =
      (collectFiles fsNoMatches).any (fun p => statOk (fsNoMatches.statOf p)) :=
  c9_hasdata_iff_nonempty_snapshot "h" fsNoMatches [] 10 initState [] 0 (by decide)

/-- C9 counterexample: a reconciliation that completes and publishes a
confirmed-empty snapshot (timestamp set, `files_updated` reported), yet
`has_data()` still answers false, because `has_data` only tests
`len(file_cache) > 0` (line 1021). -/
theorem c9_empty_publish_hasdata_false :
    (runCycle "h" fsNoMatches [] 10 initState).2 = some 0 ∧
    (runCycle "h" fsNoMatches [] 10 initState).1.last_cache_update = 10 ∧
    has_data (runCycle "h" fsNoMatches [] 10 initState).1 = false := by
  decide

/-- C3 counterexample: a burst of 10 rapid events on one supported path
marks staleness eleven times, not once — `on_any_event` zeroes
`app.last_cache_update` immediately on **every** event (line 50) before
debouncing, and the surviving timer's `trigger_update` zeroes it an
eleventh time; only the timer count is 1. -/
theorem c3_burst_marks_staleness_per_event :
    (runBurst 10 "doc.pdf" w0).trigger_calls = 1 ∧
    (runBurst 10 "doc.pdf" w0).staleness_marks = 11 ∧
    ¬ (runBurst 10 "doc.pdf" w0).staleness_marks ≤ 1 := by
  decide

/-- Helper for C3: after `n + 1` same-path events inside the window,
exactly one timer is pending (each event cancelled its predecessor),
each event zeroed the app timestamp once, `trigger_update` never ran,
and the cache was never touched. -/
theorem applyEvents_fields (p : String) (s : WatcherState)
    (hp : supportedExts.contains (extOf p) = true) (ht : s.debounce_timers = []) :
    ∀ n : Nat,
      (applyEvents p s (n + 1)).debounce_timers = [(p, s.next_timer + n)] ∧
      (applyEvents p s (n + 1)).next_timer = s.next_timer + n + 1 ∧
      (applyEvents p s (n + 1)).staleness_marks = s.staleness_marks + (n + 1) ∧
      (applyEvents p s (n + 1)).trigger_calls = s.trigger_calls ∧
      (applyEvents p s (n + 1)).file_cache = s.file_cache := by
  have hp' : extOf p ∈ supportedExts := by
    simpa using hp
  intro n
  induction n with
  | zero =>
    simp [applyEvents, on_any_event, hp', ht]
  | succ m ih =>
    obtain ⟨h1, h2, h3, h4, h5⟩ := ih
    have hstep : applyEvents p s (m + 1 + 1) = on_any_event (applyEvents p s (m + 1)) false p :=
      rfl
    rw [hstep, on_any_event]
    rw [if_neg (by simp)]
    rw [if_pos hp]
    refine ⟨?_, ?_, ?_, ?_, ?_⟩ <;> simp [List.eraseP, h1, h2, h3, h4, h5, add_assoc]

/-- C3 (amended): a burst of `n ≥ 1` rapid events on one supported path
within the debounce window leads to exactly one `trigger_update`
call (the collapsed timer expiry), but staleness is marked `n + 1`
times — once per event plus once at expiry; the handler never touches
`file_cache` (it never runs a reconciliation itself). -/
theorem c3_debounce_one_trigger_per_burst (n : Nat) (p : String) (s : WatcherState)
    (hn : 1 ≤ n) (hp : supportedExts.contains (extOf p) = true)
    (ht : s.debounce_timers = []) :
    (runBurst n p s).trigger_calls = s.trigger_calls + 1 ∧
    (runBurst n p s).staleness_marks = s.staleness_marks + n + 1 ∧
    (runBurst n p s).file_cache = s.file_cache := by
  obtain ⟨m, rfl⟩ : ∃ m, n = m + 1 := ⟨n - 1, by omega⟩
  obtain ⟨h1, h2, h3, h4, h5⟩ := applyEvents_fields p s hp ht m
  refine ⟨?_, ?_, ?_⟩ <;>
    simp [runBurst, fire_pending, h1, h3, h4, h5, trigger_update, add_assoc]

/-- C3 witness: the amended statement at a concrete 10-event burst. -/
theorem c3_debounce_one_trigger_per_burst_witness :
    (runBurst 10 "a.docx" w0).trigger_calls = w0.trigger_calls + 1 ∧
    (runBurst 10 "a.docx" w0).staleness_marks = w0.staleness_marks + 10 + 1 ∧
    (runBurst 10 "a.docx" w0).file_cache = w0.file_cache :=
  c3_debounce_one_trigger_per_burst 10 "a.docx" w0 (by decide) (by decide) rfl

/-- Helper for C8: a prefix of the segments that climbs above the root
makes resolution fail. -/
theorem resolveSegs_eq_none_of_escapes :
    ∀ (segs : List String) (acc : List String),
      escapesAux segs acc.length = true → resolveSegs segs acc = none := by
  intro segs
  induction segs with
  | nil => intro acc h; simp [escapesAux] at h
  | cons seg rest ih =>
    intro acc h
    rw [resolveSegs.eq_def]
    dsimp only
    by_cases h1 : seg = "" ∨ seg = "."
    · rw [escapesAux, if_pos h1] at h
      rw [if_pos h1]
      exact ih acc h
    · by_cases h2 : seg = ".."
      · rw [escapesAux, if_neg h1, if_pos h2] at h
        rw [if_neg h1, if_pos h2]
        cases acc with
        | nil => rfl
        | cons a acc' =>
          simp only [List.length_cons] at h
          rw [if_neg (by omega)] at h
          exact ih acc' (by simpa using h)
      · rw [escapesAux, if_neg h1, if_neg h2] at h
        rw [if_neg h1, if_neg h2]
        exact ih (seg :: acc) (by simpa using h)

/-- Helper for C8: successful resolution never leaves a `..` segment in
the resolved path. -/
theorem resolveSegs_no_dotdot :
    ∀ (segs : List String) (acc : List String) (out : List String),
      (∀ a ∈ acc, a ≠ "..") → resolveSegs segs acc = some out → ∀ a ∈ out, a ≠ ".." := by
  intro segs
  induction segs with
  | nil =>
    intro acc out hacc h
    rw [resolveSegs.eq_def] at h
    simp only [Option.some.injEq] at h
    subst h
    intro a ha
    exact hacc a (List.mem_reverse.mp ha)
  | cons seg rest ih =>
    intro acc out hacc h
    rw [resolveSegs.eq_def] at h
    dsimp only at h
    by_cases h1 : seg = "" ∨ seg = "."
    · rw [if_pos h1] at h
      exact ih acc out hacc h
    · by_cases h2 : seg = ".."
      · rw [if_neg h1, if_pos h2] at h
        cases acc with
        | nil => cases h
        | cons a acc' =>
          exact ih acc' out (fun b hb => hacc b (List.mem_cons_of_mem a hb)) h
      · rw [if_neg h1, if_neg h2] at h
        refine ih (seg :: acc) out ?_ h
        intro b hb
        rcases List.mem_cons.mp hb with rfl | hb'
        · exact h2
        · exact hacc b hb'

/-- C8: every relative path whose `..` travel escapes the configured
root is rejected as an invalid path before any read, and whenever a
file is served its content was read at a fully-resolved,
`..`-free path below the root. -/
theorem c8_path_escape_rejected :
    (∀ (fs : ServeFS) (rel : String), escapesRoot rel = true →
      fetchFileBytes fs rel = .invalidPath) ∧
    (∀ (fs : ServeFS) (rel : String) (c : List String),
      fetchFileBytes fs rel = .ok c →
      ∃ segs, resolveSegs (splitOnChar '/' rel) [] = some segs ∧
        (∀ a ∈ segs, a ≠ "..") ∧ fs.read segs = some c) := by
  constructor
  · intro fs rel h
    have hn : resolveSegs (splitOnChar '/' rel) [] = none :=
      resolveSegs_eq_none_of_escapes (splitOnChar '/' rel) [] h
    simp [fetchFileBytes, hn]
  · intro fs rel c h
    unfold fetchFileBytes at h
    cases hr : resolveSegs (splitOnChar '/' rel) [] with
    | none => rw [hr] at h; cases h
    | some segs =>
      rw [hr] at h
      dsimp only at h
      cases hread : fs.read segs with
      | none => rw [hread] at h; cases h
      | some c' =>
        rw [hread] at h
        cases h
        exact ⟨segs, rfl, resolveSegs_no_dotdot _ [] segs (by simp) hr, hread⟩

/-- C8 witness: `../../etc/passwd` is rejected without consulting the
filesystem. -/
theorem c8_path_escape_rejected_witness :
    fetchFileBytes ⟨fun _ => none⟩ "../../etc/passwd" = .invalidPath :=
  c8_path_escape_rejected.1 ⟨fun _ => none⟩ "../../etc/passwd" (by decide)

/-- The identity-and-order key of a record: its reconciliation key and
sort key. -/
def recKey (r : FileRecord) : String × Nat := (r.full_path, r.modified)

/-- Descending-by-timestamp on keys. -/
def keyDesc (a b : String × Nat) : Prop := b.2 ≤ a.2

instance : DecidableRel keyDesc := fun a b => Nat.decLe b.2 a.2

/-- Helper for C6: the `previous_files` dict built by `keyByPath` only
answers a record whose `full_path` is the queried key. -/
theorem keyByPath_lookup (c : List FileRecord) (p : String) (r : FileRecord)
    (h : (keyByPath c).lookup p = some r) : r.full_path = p := by
  induction c with
  | nil => cases h
  | cons f rest ih =>
    simp only [keyByPath, List.map_cons] at h
    rw [List.lookup] at h
    cases hbe : p == f.full_path
    · rw [hbe] at h
      exact ih (by simpa [keyByPath] using h)
    · rw [hbe] at h
      dsimp only at h
      cases h
      exact (eq_of_beq hbe).symm

/-- Helper for C6: a completed second pass emits, in walk order, one
record per ok-stat path whose key is exactly that path with its fresh
mtime — independently of which previous records were reused. -/
theorem processPaths_map_key (home : String) (fs : FS)
    (prevFiles : List (String × FileRecord))
    (hprev : ∀ p c, prevFiles.lookup p = some c → c.full_path = p) :
    ∀ (ps : List String) (recs : List FileRecord) (u : Nat),
      processPaths home fs prevFiles ps = some (recs, u) →
      recs.map recKey = ps.filterMap (fun p =>
        match fs.statOf p with
        | .ok m _ => some (p, m)
        | _ => none) := by
  intro ps
  induction ps with
  | nil =>
    intro recs u h
    simp only [processPaths, Option.some.injEq, Prod.mk.injEq] at h
    simp [← h.1]
  | cons q rest ih =>
    intro recs u h
    cases hq : fs.statOf q with
    | permOrMissing =>
      simp only [processPaths, hq] at h
      simpa [List.filterMap, hq] using ih recs u h
    | otherErr => simp [processPaths, hq] at h
    | ok mtime size =>
      simp only [processPaths, hq] at h
      cases hrest : processPaths home fs prevFiles rest with
      | none => rw [hrest] at h; cases h
      | some pr =>
        obtain ⟨recs0, u0⟩ := pr
        rw [hrest] at h
        dsimp only at h
        have htail := ih recs0 u0 hrest
        cases hl : prevFiles.lookup q with
        | some c =>
          rw [hl] at h
          dsimp only at h
          by_cases hm : c.modified = mtime
          · rw [if_pos hm] at h
            simp only [Option.some.injEq, Prod.mk.injEq] at h
            have hc : recKey c = (q, mtime) := by
              simp [recKey, hprev q c hl, hm]
            simp [← h.1, List.filterMap, hq, hc, htail]
          · rw [if_neg hm] at h
            simp only [Option.some.injEq, Prod.mk.injEq] at h
            simp [← h.1, List.filterMap, hq, htail, recKey, buildRecord]
        | none =>
          rw [hl] at h
          dsimp only at h
          simp only [Option.some.injEq, Prod.mk.injEq] at h
          simp [← h.1, List.filterMap, hq, htail, recKey, buildRecord]

/-- C6: the cache a completed cycle publishes is sorted by `modified`
descending, and its record order — the sequence of (path, mtime) keys —
is a function of the walked filesystem state alone: two reconciliations
over the same filesystem state produce the same order no matter which
previous snapshots (and hence which reuse decisions) they started
from. -/
theorem c6_sorted_and_order_deterministic (home : String) (fs : FS) (t₁ t₂ : Nat)
    (s₁ s₂ : EngineState) (c₁ c₂ r₁ r₂ : List FileRecord) (u₁ u₂ : Nat)
    (h₁ : processPaths home fs (keyByPath c₁) (collectFiles fs) = some (r₁, u₁))
    (h₂ : processPaths home fs (keyByPath c₂) (collectFiles fs) = some (r₂, u₂)) :
    List.Pairwise modDesc ((runCycle home fs (keyByPath c₁) t₁ s₁).1.file_cache) ∧
    ((runCycle home fs (keyByPath c₁) t₁ s₁).1.file_cache).map recKey =
      ((runCycle home fs (keyByPath c₂) t₂ s₂).1.file_cache).map recKey := by
  have e₁ : (runCycle home fs (keyByPath c₁) t₁ s₁).1.file_cache = sortByModifiedDesc r₁ := by
    simp [runCycle, h₁]
  have e₂ : (runCycle home fs (keyByPath c₂) t₂ s₂).1.file_cache = sortByModifiedDesc r₂ := by
    simp [runCycle, h₂]
  constructor
  · rw [e₁]
    exact List.sorted_insertionSort modDesc r₁
  · rw [e₁, e₂, sortByModifiedDesc, sortByModifiedDesc,
      List.map_insertionSort modDesc keyDesc recKey r₁ (fun a _ b _ => Iff.rfl),
      List.map_insertionSort modDesc keyDesc recKey r₂ (fun a _ b _ => Iff.rfl),
      processPaths_map_key home fs (keyByPath c₁) (fun p c => keyByPath_lookup c₁ p c)
        (collectFiles fs) r₁ u₁ h₁,
      processPaths_map_key home fs (keyByPath c₂) (fun p c => keyByPath_lookup c₂ p c)
        (collectFiles fs) r₂ u₂ h₂]

/-- C6 witness: two reconciliations of the same two-file tree, one from
an empty previous snapshot and one from a different snapshot, publish a
descending-sorted cache with identical key order. -/
theorem c6_sorted_and_order_deterministic_witness :
    List.Pairwise modDesc ((runCycle "h" fsTwoFiles (keyByPath []) 11 initState).1.file_cache) ∧
    ((runCycle "h" fsTwoFiles (keyByPath []) 11 initState).1.file_cache).map recKey =
      ((runCycle "h" fsTwoFiles (keyByPath [mkRec 0]) 12 sPublished).1.file_cache).map recKey :=
  c6_sorted_and_order_deterministic "h" fsTwoFiles 11 12 initState sPublished [] [mkRec 0]
    twoFilesRecs twoFilesRecs twoFilesUpd twoFilesUpd (by decide) (by decide)

/-- Helper for C2: appending an element above everything in a strictly
increasing chain keeps it strictly increasing. -/
theorem chain_concat_lt (l : List Nat) (x : Nat) (hc : List.Chain' (· < ·) l)
    (hx : ∀ v ∈ l, v < x) : List.Chain' (· < ·) (l ++ [x]) := by
  rw [List.chain'_append]
  refine ⟨hc, List.chain'_singleton x, ?_⟩
  intro a ha b hb
  simp only [List.head?_cons, Option.mem_def, Option.some.injEq] at hb
  subst hb
  exact hx a (List.mem_of_mem_getLast? ha)

/-- The induction invariant for the `/updates` consumer: its stored
version never exceeds the live one, version-equality means its file
count is also in sync, and everything it has yielded so far is a
strictly increasing sequence bounded by its stored version. -/
def notifierInv (s : NotifierState) : Prop :=
  s.last_version ≤ s.app_last ∧
  (s.last_version = s.app_last → s.last_file_count = s.file_cache.length) ∧
  List.Chain' (· < ·) s.observed ∧
  ∀ v ∈ s.observed, v ≤ s.last_version

/-- Helper for C2: the invariant is preserved by every trace that
contains no invalidation and whose publish times strictly increase. -/
theorem notifier_fold_inv :
    ∀ (evs : List NotifierEv) (s : NotifierState),
      NotifierEv.invalidate ∉ evs → clockOK s.app_last evs = true → notifierInv s →
      notifierInv (evs.foldl notifierStep s) := by
  intro evs
  induction evs with
  | nil => intro s _ _ hs; exact hs
  | cons e rest ih =>
    intro s hmem hck hs
    have hmem' : NotifierEv.invalidate ∉ rest := fun hr => hmem (List.mem_cons_of_mem e hr)
    rw [List.foldl_cons]
    cases e with
    | invalidate => exact absurd (List.mem_cons_self _ _) hmem
    | publish t recs =>
      rw [clockOK] at hck
      have hck' := (Bool.and_eq_true _ _).mp hck
      have hck1 : s.app_last < t := of_decide_eq_true hck'.1
      obtain ⟨i1, i2, i3, i4⟩ := hs
      have hlt : s.last_version < t := lt_of_le_of_lt i1 hck1
      refine ih _ hmem' (by simpa [notifierStep] using hck'.2) ?_
      exact ⟨le_of_lt hlt, fun heq => absurd heq (ne_of_lt hlt), i3, i4⟩
    | poll =>
      rw [clockOK] at hck
      obtain ⟨i1, i2, i3, i4⟩ := hs
      rcases lt_or_eq_of_le i1 with hlt | heq
      · have hcond : s.last_version < s.app_last ∨
            5 < Nat.dist s.file_cache.length s.last_file_count := Or.inl hlt
        have hstep : notifierStep s .poll =
            { s with last_version := s.app_last, last_file_count := s.file_cache.length,
                     observed := s.observed ++ [s.app_last] } := by
          simp [notifierStep, hcond]
        rw [hstep]
        refine ih _ hmem' (by simpa using hck) ?_
        refine ⟨le_refl _, fun _ => rfl, ?_, ?_⟩
        · exact chain_concat_lt _ _ i3 (fun v hv => lt_of_le_of_lt (i4 v hv) hlt)
        · intro v hv
          rcases List.mem_append.mp hv with hv1 | hv2
          · exact le_of_lt (lt_of_le_of_lt (i4 v hv1) hlt)
          · simp only [List.mem_singleton] at hv2
            exact le_of_eq hv2
      · have hc2 : s.last_file_count = s.file_cache.length := i2 heq
        have hcond : ¬ (s.last_version < s.app_last ∨
            5 < Nat.dist s.file_cache.length s.last_file_count) := by
          rintro (hb | hb)
          · exact absurd heq (ne_of_lt hb)
          · rw [hc2, Nat.dist_self] at hb
            exact absurd hb (by omega)
        have hstep : notifierStep s .poll = s := by
          simp [notifierStep, hcond]
        rw [hstep]
        exact ih _ hmem' hck ⟨i1, i2, i3, i4⟩

/-- C2 (amended): as long as no watcher invalidation fires (which zeroes
the version timestamps) and the wall clock strictly increases across
publishes, the versions a consumer of `/updates` yields are strictly
increasing — it never re-observes an older version.  An invalidation
between a publish and a poll breaks this, as the counterexample
shows. -/
theorem c2_versions_monotone_without_invalidation (evs : List NotifierEv)
    (h1 : NotifierEv.invalidate ∉ evs) (h2 : clockOK 0 evs = true) :
    List.Chain' (· < ·) (runNotifier evs).observed := by
  have h0 : notifierInv ⟨[], 0, 0, 0, 0, []⟩ :=
    ⟨le_refl 0, fun _ => rfl, List.chain'_nil, by simp⟩
  exact (notifier_fold_inv evs _ h1 h2 h0).2.2.1

/-- C2 witness: the amended statement on a concrete two-publish trace. -/
theorem c2_versions_monotone_without_invalidation_witness :
    List.Chain' (· < ·) (runNotifier c2GoodTrace).observed :=
  c2_versions_monotone_without_invalidation c2GoodTrace (by decide) (by decide)

/-- C2 counterexample: a consumer that yields version 5, then — after a
second publish grows the cache by more than five records and
`trigger_update` zeroes `app.last_cache_update` — yields version 0 via
the file-count branch of line 1031: its observed sequence `[5, 0]` is
not monotone, refuting "a consumer that observed N never later observes
a version smaller than N". -/
theorem c2_consumer_observes_version_zero :
    (runNotifier c2Trace).observed = [5, 0] ∧
    ¬ List.Chain' (· ≤ ·) (runNotifier c2Trace).observed := by
  have hobs : (runNotifier c2Trace).observed = [5, 0] := by decide
  refine ⟨hobs, ?_⟩
  rw [hobs]
  intro hc
  have h50 : (5 : Nat) ≤ 0 := (List.chain'_cons.mp hc).1
  omega

/-- C10: a `page` query parameter that Python's `int()` cannot parse
makes the route raise `ValueError` at line 184, before the cache is
even consulted (the outcome is the same error for every cache and every
other parameter) — the request fails rather than being clamped or
defaulted. -/
theorem c10_malformed_page_raises (search ftype dfrom dto : Option String)
    (cache : List FileRecord) (s : String) (h : pythonInt s = none) :
    indexRoute ⟨search, ftype, some s, dfrom, dto⟩ cache = .error .valueError := by
  simp [indexRoute, h, Bind.bind, Except.bind]

/-- C5: pagination clamps the requested page into
`[1, max 1 ceil(total/pageSize)]` (so page 1 even with zero matches),
reports the pre-pagination match count, and returns the slice of the
clamped page; `total_pages` is exactly the ceiling of
`total / FILES_PER_PAGE` (characterized as the least `k` with
`total ≤ FILES_PER_PAGE * k`).  With 25 matches: page 1 has 20 records
and total 25, page 2 has 5, and page 3 clamps to page 2's content. -/
theorem c5_pagination_clamp :
    (∀ (files : List FileRecord) (page : Int),
      1 ≤ (paginate page files).page ∧
      (paginate page files).page ≤ max 1 (Int.ofNat (paginate page files).total_pages) ∧
      (∀ k : Nat, (paginate page files).total_pages ≤ k ↔
        files.length ≤ FILES_PER_PAGE * k) ∧
      (paginate page files).total_files = files.length ∧
      (paginate page files).records =
        (files.drop (((paginate page files).page - 1).toNat * FILES_PER_PAGE)).take
          FILES_PER_PAGE) ∧
    (paginate 1 (mkRecs 25)).records.length = 20 ∧
    (paginate 1 (mkRecs 25)).total_files = 25 ∧
    (paginate 2 (mkRecs 25)).records.length = 5 ∧
    (paginate 3 (mkRecs 25)).page = 2 ∧
    (paginate 3 (mkRecs 25)).records = (paginate 2 (mkRecs 25)).records := by
  refine ⟨?_, by decide, by decide, by decide, by decide, by decide⟩
  intro files page
  refine ⟨le_max_left _ _, max_le_max (le_refl 1) (min_le_right _ _), ?_, rfl, rfl⟩
  intro k
  show (files.length + FILES_PER_PAGE - 1) / FILES_PER_PAGE ≤ k ↔ _
  simp only [FILES_PER_PAGE]
  omega

/-- Helper for C4: with no type or date filter active, the per-file loop
body reduces to the term-matching test. -/
theorem filterStep_search (sq : String) (h : sq ≠ "") (f : FileRecord) :
    filterStep "all" "" "" sq f =
      .ok ((pySplitWS sq).any fun term =>
        strContains (pyLower f.name) term || strContains (pyLower f.folder) term) := by
  cases hm : (pySplitWS sq).any fun term =>
      strContains (pyLower f.name) term || strContains (pyLower f.folder) term <;>
    simp [filterStep, h, hm, Pure.pure, Except.pure, Bind.bind, Except.bind]

/-- C4: for every snapshot and a non-empty (post-strip, post-lower)
search string, with the type filter at "all" and no date bounds, the
route's filtering stage returns exactly the records for which at least
one whitespace-separated term of the query occurs as a substring of the
lowercased name or the lowercased folder — an OR across terms. -/
theorem c4_search_or_semantics (cache : List FileRecord) (sq : String) (h : sq ≠ "") :
    filter_files "all" "" "" sq cache =
      .ok (cache.filter fun f => (pySplitWS sq).any fun term =>
        strContains (pyLower f.name) term || strContains (pyLower f.folder) term) := by
  induction cache with
  | nil => rfl
  | cons f rest ih =>
    rw [filter_files, filterStep_search sq h f]
    cases hb : (pySplitWS sq).any fun term =>
        strContains (pyLower f.name) term || strContains (pyLower f.folder) term <;>
      simp [Bind.bind, Except.bind, ih, List.filter, hb, Pure.pure, Except.pure]

/-- C4 witness: a two-record snapshot queried with `report xyz` keeps
exactly the record whose name contains `report`. -/
theorem c4_search_or_semantics_witness :
    filter_files "all" "" "" "report xyz" (mkRecs 2) =
      .ok ((mkRecs 2).filter fun f => (pySplitWS "report xyz").any fun term =>
        strContains (pyLower f.name) term || strContains (pyLower f.folder) term) :=
  c4_search_or_semantics (mkRecs 2) "report xyz" (by decide)

/-- C10 witness: `page=abc` fails every request, here on a 25-record
cache with an otherwise well-formed query. -/
theorem c10_malformed_page_raises_witness :
    indexRoute ⟨some "report", some "pdf", some "abc", none, none⟩ (mkRecs 25) =
      .error .valueError :=
  c10_malformed_page_raises (some "report") (some "pdf") none none (mkRecs 25) "abc"
    (by decide)

end App
